import Mathlib

/-!
# UC Hygiene — formal model of the check engine

A shallow embedding of the hygiene-check engine from `uchygiene`
(`checks.py`, `client.py`, and the detail rendering of `reporters.py`).
The remote accessor is modelled as an immutable snapshot of fallible
operations: each listing call either returns its records (`Except.ok`)
or fails (`Except.error`), mirroring a Python call that either returns
or raises.  Python's `try/except Exception: continue` around a call
becomes a `match` on the `Except` value that yields the empty
contribution on `error`; an uncaught call simply propagates its
`error` through `Except.map`/`bind`.
-/

namespace UCHygiene

/-- Severity level for hygiene check results (`CheckSeverity` in checks.py). -/
inductive CheckSeverity where
  | INFO
  | WARNING
  | ERROR
deriving DecidableEq, Repr

/-- A value stored in a result's `details` mapping.  The engine only ever
stores lists of column-name strings; the console reporter distinguishes
list values from everything else, so the model keeps the two shapes. -/
inductive DetailValue where
  | strList : List String → DetailValue
  | str : String → DetailValue
deriving DecidableEq, Repr

/-- `CheckResult` from checks.py: one reported hygiene issue. -/
structure CheckResult where
  check_name : String
  severity : CheckSeverity
  object_type : String
  object_name : String
  message : String
  details : List (String × DetailValue) := []
deriving DecidableEq, Repr

/-- A catalog record as returned by `list_catalogs` (`CatalogInfo`). -/
structure CatalogInfo where
  name : String
  comment : Option String
deriving DecidableEq, Repr

/-- A schema record as returned by `list_schemas` (`SchemaInfo`). -/
structure SchemaInfo where
  name : String
  comment : Option String
deriving DecidableEq, Repr

/-- A column record (`ColumnInfo`). -/
structure ColumnInfo where
  name : String
  comment : Option String
deriving DecidableEq, Repr

/-- A table record (`TableInfo`).  `columns` is only populated on the
record returned by `get_table`; listing calls leave it `none`. -/
structure TableInfo where
  name : String
  comment : Option String
  owner : Option String
  columns : Option (List ColumnInfo) := none
deriving DecidableEq, Repr

/-- Python truthiness of an optional string field: `if x:` is true
exactly when the field is present and non-empty, so `if not x:` treats
`None` and `""` alike as missing. -/
def strTruthy : Option String → Bool
  | none => false
  | some s => s ≠ ""

/-- The guard `if some_filter and name != some_filter: continue` from
checks.py / client.py: an object is skipped exactly when the filter is
truthy (present and non-empty) and the name differs from it. -/
def filterSkips : Option String → String → Bool
  | none, _ => false
  | some s, name => s ≠ "" && name ≠ s

/-- A single-quote character, used by the message f-strings. -/
def sq : String := "\x27"

/-- Python's `str.startswith`: a prefix test on the character sequence. -/
def strStartsWith (s p : String) : Bool := p.data.isPrefixOf s.data

/-- `UCHygieneClient` (client.py), as an immutable snapshot: each
operation is a pure function that either returns its records or fails. -/
structure UCHygieneClient where
  list_catalogs : Except String (List CatalogInfo)
  list_schemas : String → Except String (List SchemaInfo)
  list_tables : String → String → Except String (List TableInfo)
  get_table : String → Except String TableInfo

/-- `get_table_columns` (client.py): fetch the table and take
`table.columns or []` — `None` (and an empty list) become `[]`. -/
def UCHygieneClient.get_table_columns (client : UCHygieneClient)
    (full_name : String) : Except String (List ColumnInfo) :=
  (client.get_table full_name).map fun table => table.columns.getD []

/-- The three-part name `f"{catalog_name}.{schema_name}.{table_name}"`. -/
def fullTableName (catalog_name schema_name table_name : String) : String :=
  catalog_name ++ "." ++ schema_name ++ "." ++ table_name

/-- The result appended by `check_catalog_comments` for one catalog. -/
def catalogFinding (catalog : CatalogInfo) : CheckResult :=
  { check_name := "catalog_comment"
    severity := .WARNING
    object_type := "catalog"
    object_name := catalog.name
    message := "Catalog " ++ sq ++ catalog.name ++ sq ++ " has no description" }

/-- The result appended by `check_schema_comments` for one schema. -/
def schemaFinding (catalog_name schema_name : String) : CheckResult :=
  { check_name := "schema_comment"
    severity := .WARNING
    object_type := "schema"
    object_name := catalog_name ++ "." ++ schema_name
    message := "Schema " ++ sq ++ catalog_name ++ "." ++ schema_name ++ sq
      ++ " has no description" }

/-- The result appended by `check_table_comments` for one table. -/
def tableCommentFinding (full_name : String) : CheckResult :=
  { check_name := "table_comment"
    severity := .WARNING
    object_type := "table"
    object_name := full_name
    message := "Table " ++ sq ++ full_name ++ sq ++ " has no description" }

/-- The result appended by `check_column_comments` for one table. -/
def columnCommentFinding (full_name : String) (cols : List String) : CheckResult :=
  { check_name := "column_comment"
    severity := .INFO
    object_type := "table"
    object_name := full_name
    message := "Table " ++ sq ++ full_name ++ sq ++ " has "
      ++ toString cols.length ++ " columns without descriptions"
    details := [("columns", DetailValue.strList cols)] }

/-- The result appended by `check_table_owners` for one table. -/
def tableOwnerFinding (full_name : String) : CheckResult :=
  { check_name := "table_owner"
    severity := .WARNING
    object_type := "table"
    object_name := full_name
    message := "Table " ++ sq ++ full_name ++ sq ++ " has no owner assigned" }

/-- The result appended by `check_empty_schemas` for one schema. -/
def emptySchemaFinding (catalog_name schema_name : String) : CheckResult :=
  { check_name := "empty_schema"
    severity := .INFO
    object_type := "schema"
    object_name := catalog_name ++ "." ++ schema_name
    message := "Schema " ++ sq ++ catalog_name ++ "." ++ schema_name ++ sq
      ++ " contains no tables" }

/-- Loop body of `check_catalog_comments`: appends a finding exactly when
`not catalog.comment`. -/
def catalogCommentOpt (catalog : CatalogInfo) : Option CheckResult :=
  if !strTruthy catalog.comment then some (catalogFinding catalog) else none

/-- Inner loop body of `check_schema_comments`. -/
def schemaCommentOpt (catalog_name : String) (schema : SchemaInfo) : Option CheckResult :=
  if !strTruthy schema.comment then some (schemaFinding catalog_name schema.name) else none

/-- Loop body of `check_table_comments` over one yielded
`(catalog_name, schema_name, table)` triple. -/
def tableCommentOpt : String × String × TableInfo → Option CheckResult
  | (catalog_name, schema_name, table) =>
    if !strTruthy table.comment then
      some (tableCommentFinding (fullTableName catalog_name schema_name table.name))
    else none

/-- Loop body of `check_table_owners` over one yielded triple. -/
def tableOwnerOpt : String × String × TableInfo → Option CheckResult
  | (catalog_name, schema_name, table) =>
    if !strTruthy table.owner then
      some (tableOwnerFinding (fullTableName catalog_name schema_name table.name))
    else none

/-- The list comprehension
`[col.name for col in columns if not col.comment]`. -/
def columnsWithoutComments (columns : List ColumnInfo) : List String :=
  (columns.filter fun col => !strTruthy col.comment).map ColumnInfo.name

/-- Loop body of `check_column_comments` over one yielded triple:
fetch the columns (skipping the table on failure), collect the names of
columns whose comment is missing, and append one finding when the
collection is non-empty. -/
def columnCommentOpt (client : UCHygieneClient) :
    String × String × TableInfo → Option CheckResult
  | (catalog_name, schema_name, table) =>
    let full_name := fullTableName catalog_name schema_name table.name
    match client.get_table_columns full_name with
    | .error _ => none
    | .ok columns =>
      if (columnsWithoutComments columns).isEmpty then none
      else some (columnCommentFinding full_name (columnsWithoutComments columns))

/-- Inner loop body of `check_empty_schemas`: skip `information_schema`
schemas, list the tables (skipping the schema on failure), and append a
finding when the listing is empty. -/
def emptySchemaOpt (client : UCHygieneClient) (catalog_name : String)
    (schema : SchemaInfo) : Option CheckResult :=
  if strStartsWith schema.name "information_schema" then none
  else
    match client.list_tables catalog_name schema.name with
    | .error _ => none
    | .ok tables =>
      if tables.length = 0 then some (emptySchemaFinding catalog_name schema.name)
      else none

/-- `check_catalog_comments` (checks.py): one finding per catalog whose
comment is missing.  A failure of `list_catalogs` is not caught. -/
def check_catalog_comments (client : UCHygieneClient) :
    Except String (List CheckResult) :=
  (client.list_catalogs).map fun catalogs => catalogs.filterMap catalogCommentOpt

/-- Outer loop body of `check_schema_comments` for one catalog: skip it
when the filter excludes it or its schema listing fails, else test each
of its schemas. -/
def schemaCommentsForCatalog (client : UCHygieneClient)
    (catalog_filter : Option String) (catalog : CatalogInfo) : List CheckResult :=
  if filterSkips catalog_filter catalog.name then []
  else
    match client.list_schemas catalog.name with
    | .error _ => []
    | .ok schemas => schemas.filterMap (schemaCommentOpt catalog.name)

/-- Body of `check_schema_comments` after the `list_catalogs` call. -/
def schema_comments_of (client : UCHygieneClient) (catalog_filter : Option String)
    (catalogs : List CatalogInfo) : List CheckResult :=
  catalogs.flatMap (schemaCommentsForCatalog client catalog_filter)

/-- `check_schema_comments` (checks.py). -/
def check_schema_comments (client : UCHygieneClient)
    (catalog_filter : Option String) : Except String (List CheckResult) :=
  (client.list_catalogs).map (schema_comments_of client catalog_filter)

/-- Inner loop body of `iter_all_tables` for one schema: skip it when
the filter excludes it or its table listing fails, else yield its
tables. -/
def iterTablesForSchema (client : UCHygieneClient) (catalog_name : String)
    (schema_filter : Option String) (schema : SchemaInfo) :
    List (String × String × TableInfo) :=
  if filterSkips schema_filter schema.name then []
  else
    match client.list_tables catalog_name schema.name with
    | .error _ => []
    | .ok tables => tables.map fun table => (catalog_name, schema.name, table)

/-- Outer loop body of `iter_all_tables` for one catalog. -/
def iterTablesForCatalog (client : UCHygieneClient)
    (catalog_filter schema_filter : Option String) (catalog : CatalogInfo) :
    List (String × String × TableInfo) :=
  if filterSkips catalog_filter catalog.name then []
  else
    match client.list_schemas catalog.name with
    | .error _ => []
    | .ok schemas => schemas.flatMap (iterTablesForSchema client catalog.name schema_filter)

/-- Body of `iter_all_tables` (client.py) after the `list_catalogs` call:
the filtered traversal of catalogs and schemas, skipping inaccessible
branches, yielding `(catalog_name, schema_name, table)` triples. -/
def iter_tables_of (client : UCHygieneClient)
    (catalog_filter schema_filter : Option String)
    (catalogs : List CatalogInfo) : List (String × String × TableInfo) :=
  catalogs.flatMap (iterTablesForCatalog client catalog_filter schema_filter)

/-- `iter_all_tables` (client.py).  The generator's body swallows the
nested listing failures, but a failure of the initial `list_catalogs`
propagates to the consumer. -/
def UCHygieneClient.iter_all_tables (client : UCHygieneClient)
    (catalog_filter schema_filter : Option String) :
    Except String (List (String × String × TableInfo)) :=
  (client.list_catalogs).map (iter_tables_of client catalog_filter schema_filter)

/-- `check_table_comments` (checks.py). -/
def check_table_comments (client : UCHygieneClient)
    (catalog_filter schema_filter : Option String) :
    Except String (List CheckResult) :=
  (client.iter_all_tables catalog_filter schema_filter).map fun triples =>
    triples.filterMap tableCommentOpt

/-- `check_column_comments` (checks.py). -/
def check_column_comments (client : UCHygieneClient)
    (catalog_filter schema_filter : Option String) :
    Except String (List CheckResult) :=
  (client.iter_all_tables catalog_filter schema_filter).map fun triples =>
    triples.filterMap (columnCommentOpt client)

/-- `check_table_owners` (checks.py). -/
def check_table_owners (client : UCHygieneClient)
    (catalog_filter schema_filter : Option String) :
    Except String (List CheckResult) :=
  (client.iter_all_tables catalog_filter schema_filter).map fun triples =>
    triples.filterMap tableOwnerOpt

/-- Outer loop body of `check_empty_schemas` for one catalog. -/
def emptySchemasForCatalog (client : UCHygieneClient)
    (catalog_filter : Option String) (catalog : CatalogInfo) : List CheckResult :=
  if filterSkips catalog_filter catalog.name then []
  else
    match client.list_schemas catalog.name with
    | .error _ => []
    | .ok schemas => schemas.filterMap (emptySchemaOpt client catalog.name)

/-- Body of `check_empty_schemas` after the `list_catalogs` call. -/
def empty_schemas_of (client : UCHygieneClient) (catalog_filter : Option String)
    (catalogs : List CatalogInfo) : List CheckResult :=
  catalogs.flatMap (emptySchemasForCatalog client catalog_filter)

/-- `check_empty_schemas` (checks.py). -/
def check_empty_schemas (client : UCHygieneClient)
    (catalog_filter : Option String) : Except String (List CheckResult) :=
  (client.list_catalogs).map (empty_schemas_of client catalog_filter)

/-- `run_all_checks` (checks.py): run the six checks in their fixed
order and concatenate.  Any uncaught failure inside a check (only the
top-level `list_catalogs` can raise one) propagates. -/
def run_all_checks (client : UCHygieneClient)
    (catalog_filter schema_filter : Option String) :
    Except String (List CheckResult) := do
  let r1 ← check_catalog_comments client
  let r2 ← check_schema_comments client catalog_filter
  let r3 ← check_table_comments client catalog_filter schema_filter
  let r4 ← check_column_comments client catalog_filter schema_filter
  let r5 ← check_table_owners client catalog_filter schema_filter
  let r6 ← check_empty_schemas client catalog_filter
  return r1 ++ r2 ++ r3 ++ r4 ++ r5 ++ r6

/-- The display string the console reporter builds for one detail value
(`ConsoleReporter.report`, reporters.py): a list of more than 5 entries
is truncated to its first 5, joined by `", "`, with a `"... (+N more)"`
suffix; a shorter list is joined in full; anything else is `str(value)`. -/
def displayDetailValue : DetailValue → String
  | .strList value =>
    if value.length > 5 then
      String.intercalate ", " (value.take 5)
        ++ "... (+" ++ toString (value.length - 5) ++ " more)"
    else
      String.intercalate ", " value
  | .str s => s

/-- The table-comment findings as a function of the catalog listing:
the filtered traversal followed by the per-table comment test.
`check_table_comments` is exactly this, applied under `Except.map` to
the result of `list_catalogs`. -/
def table_comments_of (client : UCHygieneClient)
    (catalog_filter schema_filter : Option String)
    (catalogs : List CatalogInfo) : List CheckResult :=
  (iter_tables_of client catalog_filter schema_filter catalogs).filterMap tableCommentOpt

/-- The schemas of one catalog that `check_empty_schemas` actually
visits, paired with their catalog: none when the filter excludes the
catalog or its schema listing fails. -/
def traversedForCatalog (client : UCHygieneClient) (catalog_filter : Option String)
    (catalog : CatalogInfo) : List (CatalogInfo × SchemaInfo) :=
  if filterSkips catalog_filter catalog.name then []
  else
    match client.list_schemas catalog.name with
    | .error _ => []
    | .ok schemas => schemas.map fun schema => (catalog, schema)

/-- The `(catalog, schema)` pairs that `check_empty_schemas` actually
visits: schemas of catalogs that pass the filter and whose schema
listing succeeds. -/
def traversedSchemas (client : UCHygieneClient) (catalog_filter : Option String)
    (catalogs : List CatalogInfo) : List (CatalogInfo × SchemaInfo) :=
  catalogs.flatMap (traversedForCatalog client catalog_filter)

/-! ## Concrete snapshots used to instantiate the theorems -/

/-- A snapshot with three catalogs: `c1` (uncommented, one schema `s1`
holding an uncommented/unowned table `t1` with columns `col_a`
(uncommented) and `col_b` (commented), plus an `information_schema`),
`c2` (commented, but its schema listing fails), and `c3` (empty-string
comment, schemas `s1` (commented, no tables) and `s2` (uncommented,
one fully documented table `ta` whose detail fetch fails)). -/
def demoClient : UCHygieneClient where
  list_catalogs := .ok
    [⟨"c1", none⟩, ⟨"c2", some "ok"⟩, ⟨"c3", some ""⟩]
  list_schemas := fun catalog_name =>
    if catalog_name = "c1" then
      .ok [⟨"s1", none⟩, ⟨"information_schema", some "sys"⟩]
    else if catalog_name = "c3" then
      .ok [⟨"s1", some "doc"⟩, ⟨"s2", none⟩]
    else .error "permission denied"
  list_tables := fun catalog_name schema_name =>
    if catalog_name = "c1" ∧ schema_name = "s1" then
      .ok [⟨"t1", none, none, none⟩]
    else if catalog_name = "c1" ∧ schema_name = "information_schema" then
      .ok []
    else if catalog_name = "c3" ∧ schema_name = "s1" then
      .ok []
    else if catalog_name = "c3" ∧ schema_name = "s2" then
      .ok [⟨"ta", some "doc", some "owner", none⟩]
    else .error "permission denied"
  get_table := fun full_name =>
    if full_name = "c1.s1.t1" then
      .ok ⟨"t1", none, none, some [⟨"col_a", none⟩, ⟨"col_b", some "desc"⟩]⟩
    else .error "permission denied"

/-- A snapshot whose very first `list_catalogs` call fails. -/
def deadClient : UCHygieneClient where
  list_catalogs := .error "invalid credentials"
  list_schemas := fun _ => .ok []
  list_tables := fun _ _ => .ok []
  get_table := fun _ => .error "not found"

/-- The closest consistent snapshot to the `run_all_checks` scenario:
catalog `c1` has no comment, its schema `s1` has no comment and holds
exactly the table `c1.s1.t1`, which has no comment, no owner, and one
uncommented column `col_a`. -/
def scenarioClient : UCHygieneClient where
  list_catalogs := .ok [⟨"c1", none⟩]
  list_schemas := fun catalog_name =>
    if catalog_name = "c1" then .ok [⟨"s1", none⟩] else .error "not found"
  list_tables := fun catalog_name schema_name =>
    if catalog_name = "c1" ∧ schema_name = "s1" then
      .ok [⟨"t1", none, none, none⟩]
    else .error "not found"
  get_table := fun full_name =>
    if full_name = "c1.s1.t1" then
      .ok ⟨"t1", none, none, some [⟨"col_a", none⟩]⟩
    else .error "not found"

/-- The other reading of the same scenario: identical, except schema
`s1` really is empty — its table listing returns no tables (and the
table detail for `c1.s1.t1` is gone too). -/
def scenarioEmptyClient : UCHygieneClient where
  list_catalogs := .ok [⟨"c1", none⟩]
  list_schemas := fun catalog_name =>
    if catalog_name = "c1" then .ok [⟨"s1", none⟩] else .error "not found"
  list_tables := fun catalog_name schema_name =>
    if catalog_name = "c1" ∧ schema_name = "s1" then .ok []
    else .error "not found"
  get_table := fun _ => .error "not found"

/-! ## Shared lemmas -/

theorem except_bind_ok {ε α β : Type} (a : α) (f : α → Except ε β) :
    (Except.ok a >>= f : Except ε β) = f a := rfl

theorem except_bind_error {ε α β : Type} (e : ε) (f : α → Except ε β) :
    (Except.error e >>= f : Except ε β) = Except.error e := rfl

theorem filterSkips_some_false (v n : String) (hv : v ≠ "")
    (h : filterSkips (some v) n = false) : n = v := by
  simpa [filterSkips, hv] using h

theorem fullTableName_assoc (cn sn tn : String) :
    fullTableName cn sn tn = cn ++ "." ++ (sn ++ "." ++ tn) := by
  simp [fullTableName, String.append_assoc]

theorem flatMap_middle_nil {α β : Type} (g : α → List β) (pre post : List α)
    (b : α) (hb : g b = []) :
    (pre ++ b :: post).flatMap g = (pre ++ post).flatMap g := by
  simp [List.flatMap_append, List.flatMap_cons, hb]

theorem countP_filterMap_zero {α : Type} (f : α → Option CheckResult)
    (key : α → String) (hkey : ∀ a r, f a = some r → r.object_name = key a)
    (l : List α) (target : String) (hnot : ∀ a ∈ l, key a ≠ target) :
    ((l.filterMap f).countP fun r => r.object_name == target) = 0 := by
  induction l with
  | nil => rfl
  | cons b t ih =>
    have hb : key b ≠ target := hnot b (List.mem_cons_self b t)
    have hrest : ∀ a ∈ t, key a ≠ target := fun a ha =>
      hnot a (List.mem_cons_of_mem b ha)
    cases hfb : f b with
    | none =>
      simp only [List.filterMap_cons, hfb]
      exact ih hrest
    | some r =>
      have hr : r.object_name = key b := hkey b r hfb
      simp only [List.filterMap_cons, hfb, List.countP_cons, ih hrest, hr]
      simp [hb]

theorem countP_filterMap_key {α : Type} (f : α → Option CheckResult)
    (key : α → String) (hkey : ∀ a r, f a = some r → r.object_name = key a)
    (l : List α) (hnd : (l.map key).Nodup) (a : α) (ha : a ∈ l) :
    ((l.filterMap f).countP fun r => r.object_name == key a) =
      if (f a).isSome then 1 else 0 := by
  induction l with
  | nil => cases ha
  | cons b t ih =>
    rw [List.map_cons, List.nodup_cons] at hnd
    rcases List.mem_cons.mp ha with heq | hat
    · subst heq
      have hzero : ((t.filterMap f).countP fun r => r.object_name == key a) = 0 := by
        refine countP_filterMap_zero f key hkey t (key a) ?_
        intro c hc hceq
        exact hnd.1 (hceq ▸ List.mem_map_of_mem key hc)
      cases hfa : f a with
      | none =>
        simp only [List.filterMap_cons, hfa, hzero]
        simp
      | some r =>
        have hr : r.object_name = key a := hkey a r hfa
        simp only [List.filterMap_cons, hfa, List.countP_cons, hzero, hr]
        simp
    · have hne : key b ≠ key a := fun h => hnd.1 (h ▸ List.mem_map_of_mem key hat)
      cases hfb : f b with
      | none =>
        simp only [List.filterMap_cons, hfb]
        exact ih hnd.2 hat
      | some r =>
        have hr : r.object_name = key b := hkey b r hfb
        simp only [List.filterMap_cons, hfb, List.countP_cons, ih hnd.2 hat, hr]
        simp [hne]

theorem catalogCommentOpt_name (a : CatalogInfo) (r : CheckResult)
    (h : catalogCommentOpt a = some r) : r.object_name = a.name := by
  unfold catalogCommentOpt at h
  split at h
  · injection h with h2
    subst h2
    rfl
  · cases h

theorem catalogCommentOpt_isSome (a : CatalogInfo) :
    (catalogCommentOpt a).isSome = !strTruthy a.comment := by
  unfold catalogCommentOpt
  cases h : strTruthy a.comment <;> simp [h]

/-! ## Theorems -/

/-- C2: for the catalog listing returned by the accessor (with distinct
catalog names), the catalog-comment check yields exactly one finding
per catalog whose comment is absent or empty, no finding for any
catalog with a non-empty comment, and every finding it yields is the
WARNING finding of some missing-comment catalog. -/
theorem check_catalog_comments_correct (client : UCHygieneClient)
    (catalogs : List CatalogInfo)
    (hcat : client.list_catalogs = .ok catalogs)
    (hnd : (catalogs.map CatalogInfo.name).Nodup) :
    ∃ results, check_catalog_comments client = .ok results ∧
      (∀ c ∈ catalogs, strTruthy c.comment = false →
        (results.countP fun r => r.object_name == c.name) = 1) ∧
      (∀ c ∈ catalogs, strTruthy c.comment = true →
        (results.countP fun r => r.object_name == c.name) = 0) ∧
      (∀ r ∈ results, ∃ c ∈ catalogs, strTruthy c.comment = false ∧
        r = catalogFinding c ∧ r.severity = CheckSeverity.WARNING) := by
  refine ⟨catalogs.filterMap catalogCommentOpt, ?_, ?_, ?_, ?_⟩
  · rw [check_catalog_comments, hcat]
    rfl
  · intro c hc hmiss
    have h := countP_filterMap_key catalogCommentOpt CatalogInfo.name
      catalogCommentOpt_name catalogs hnd c hc
    rw [h, catalogCommentOpt_isSome]
    simp [hmiss]
  · intro c hc hdoc
    have h := countP_filterMap_key catalogCommentOpt CatalogInfo.name
      catalogCommentOpt_name catalogs hnd c hc
    rw [h, catalogCommentOpt_isSome]
    simp [hdoc]
  · intro r hr
    rw [List.mem_filterMap] at hr
    obtain ⟨c, hc, hfc⟩ := hr
    have hmiss : strTruthy c.comment = false ∧ r = catalogFinding c := by
      unfold catalogCommentOpt at hfc
      by_cases h : strTruthy c.comment
      · simp [h] at hfc
      · refine ⟨by simpa using h, ?_⟩
        simp [h] at hfc
        exact hfc.symm
    exact ⟨c, hc, hmiss.1, hmiss.2, by rw [hmiss.2]; rfl⟩

/-- C2 witness: on the demo snapshot (catalogs `c1` with no comment,
`c2` with comment `"ok"`, `c3` with empty comment), the check yields
one finding each for `c1` and `c3` and none for `c2`. -/
theorem check_catalog_comments_correct_witness :
    ∃ results, check_catalog_comments demoClient = .ok results ∧
      (∀ c ∈ [CatalogInfo.mk "c1" none, CatalogInfo.mk "c2" (some "ok"),
          CatalogInfo.mk "c3" (some "")], strTruthy c.comment = false →
        (results.countP fun r => r.object_name == c.name) = 1) ∧
      (∀ c ∈ [CatalogInfo.mk "c1" none, CatalogInfo.mk "c2" (some "ok"),
          CatalogInfo.mk "c3" (some "")], strTruthy c.comment = true →
        (results.countP fun r => r.object_name == c.name) = 0) ∧
      (∀ r ∈ results, ∃ c ∈ [CatalogInfo.mk "c1" none,
          CatalogInfo.mk "c2" (some "ok"), CatalogInfo.mk "c3" (some "")],
        strTruthy c.comment = false ∧
        r = catalogFinding c ∧ r.severity = CheckSeverity.WARNING) :=
  check_catalog_comments_correct demoClient
    [CatalogInfo.mk "c1" none, CatalogInfo.mk "c2" (some "ok"),
      CatalogInfo.mk "c3" (some "")] rfl (by decide)

/-- C6: a failure of the top-level `list_catalogs` call is not caught by
any check (nor by `iter_all_tables` or `run_all_checks`): it propagates
unmodified to the caller, unlike the nested per-catalog and per-schema
listing failures, which the traversal swallows. -/
theorem list_catalogs_failure_propagates (client : UCHygieneClient)
    (catalog_filter schema_filter : Option String) (e : String)
    (h : client.list_catalogs = .error e) :
    check_catalog_comments client = .error e ∧
    check_schema_comments client catalog_filter = .error e ∧
    check_table_comments client catalog_filter schema_filter = .error e ∧
    check_column_comments client catalog_filter schema_filter = .error e ∧
    check_table_owners client catalog_filter schema_filter = .error e ∧
    check_empty_schemas client catalog_filter = .error e ∧
    client.iter_all_tables catalog_filter schema_filter = .error e ∧
    run_all_checks client catalog_filter schema_filter = .error e := by
  simp [check_catalog_comments, check_schema_comments, check_table_comments,
    check_column_comments, check_table_owners, check_empty_schemas,
    UCHygieneClient.iter_all_tables, run_all_checks, h, Except.map,
    except_bind_error]

/-- C6 witness: on a snapshot whose catalog listing fails with
`"invalid credentials"`, every check and the aggregator return exactly
that error. -/
theorem list_catalogs_failure_propagates_witness :
    check_catalog_comments deadClient = .error "invalid credentials" ∧
    check_schema_comments deadClient none = .error "invalid credentials" ∧
    check_table_comments deadClient none none = .error "invalid credentials" ∧
    check_column_comments deadClient none none = .error "invalid credentials" ∧
    check_table_owners deadClient none none = .error "invalid credentials" ∧
    check_empty_schemas deadClient none = .error "invalid credentials" ∧
    deadClient.iter_all_tables none none = .error "invalid credentials" ∧
    run_all_checks deadClient none none = .error "invalid credentials" :=
  list_catalogs_failure_propagates deadClient none none "invalid credentials" rfl

/-- C1: `run_all_checks` returns exactly the concatenation, in the
fixed order catalog-comments, schema-comments, table-comments,
column-comments, table-owners, empty-schemas, of the six checks'
findings, each check receiving the same filters that `run_all_checks`
received, and its output length is the sum of the six lengths. -/
theorem run_all_checks_concatenates (client : UCHygieneClient)
    (catalog_filter schema_filter : Option String)
    (r1 r2 r3 r4 r5 r6 : List CheckResult)
    (h1 : check_catalog_comments client = .ok r1)
    (h2 : check_schema_comments client catalog_filter = .ok r2)
    (h3 : check_table_comments client catalog_filter schema_filter = .ok r3)
    (h4 : check_column_comments client catalog_filter schema_filter = .ok r4)
    (h5 : check_table_owners client catalog_filter schema_filter = .ok r5)
    (h6 : check_empty_schemas client catalog_filter = .ok r6) :
    run_all_checks client catalog_filter schema_filter =
      .ok (r1 ++ r2 ++ r3 ++ r4 ++ r5 ++ r6) ∧
    (r1 ++ r2 ++ r3 ++ r4 ++ r5 ++ r6).length =
      r1.length + r2.length + r3.length + r4.length + r5.length + r6.length := by
  constructor
  · simp [run_all_checks, h1, h2, h3, h4, h5, h6, except_bind_ok]
  · simp only [List.length_append]

/-- C1 witness: on the demo snapshot the aggregator output is the
concatenation of the six individual outputs (2+2+1+1+1+1 findings). -/
theorem run_all_checks_concatenates_witness :
    run_all_checks demoClient none none =
      .ok ([catalogFinding ⟨"c1", none⟩, catalogFinding ⟨"c3", some ""⟩]
        ++ [schemaFinding "c1" "s1", schemaFinding "c3" "s2"]
        ++ [tableCommentFinding "c1.s1.t1"]
        ++ [columnCommentFinding "c1.s1.t1" ["col_a"]]
        ++ [tableOwnerFinding "c1.s1.t1"]
        ++ [emptySchemaFinding "c3" "s1"]) ∧
    ([catalogFinding ⟨"c1", none⟩, catalogFinding ⟨"c3", some ""⟩]
        ++ [schemaFinding "c1" "s1", schemaFinding "c3" "s2"]
        ++ [tableCommentFinding "c1.s1.t1"]
        ++ [columnCommentFinding "c1.s1.t1" ["col_a"]]
        ++ [tableOwnerFinding "c1.s1.t1"]
        ++ [emptySchemaFinding "c3" "s1"]).length = 2 + 2 + 1 + 1 + 1 + 1 :=
  run_all_checks_concatenates demoClient none none
    [catalogFinding ⟨"c1", none⟩, catalogFinding ⟨"c3", some ""⟩]
    [schemaFinding "c1" "s1", schemaFinding "c3" "s2"]
    [tableCommentFinding "c1.s1.t1"]
    [columnCommentFinding "c1.s1.t1" ["col_a"]]
    [tableOwnerFinding "c1.s1.t1"]
    [emptySchemaFinding "c3" "s1"]
    rfl rfl rfl rfl rfl rfl

/-- C9: in the console reporter, a detail value that is a list of more
than 5 entries renders as its first 5 entries joined by `", "` followed
by `"... (+N more)"`, where N is the number of remaining entries. -/
theorem displayDetailValue_truncates (value : List String)
    (h5 : 5 < value.length) :
    displayDetailValue (DetailValue.strList value) =
      String.intercalate ", " (value.take 5)
        ++ "... (+" ++ toString (value.length - 5) ++ " more)" := by
  simp [displayDetailValue, h5]

/-- C9 witness: a detail list of 7 column names renders as the first 5
joined by `", "` followed by `"... (+2 more)"`. -/
theorem displayDetailValue_truncates_witness :
    5 < (["a", "b", "c", "d", "e", "f", "g"] : List String).length ∧
    displayDetailValue
        (DetailValue.strList ["a", "b", "c", "d", "e", "f", "g"]) =
      "a, b, c, d, e... (+2 more)" := by
  refine ⟨by decide, ?_⟩
  rw [displayDetailValue_truncates ["a", "b", "c", "d", "e", "f", "g"] (by decide)]
  rfl

/-- C10: passing the empty string as `catalog_filter` or
`schema_filter` behaves exactly as passing no filter at all, for the
traversal and for every check that accepts a filter — filter presence
is tested by truthiness, and `""` is falsy. -/
theorem empty_string_filter_is_no_filter (client : UCHygieneClient)
    (f : Option String) :
    client.iter_all_tables (some "") f = client.iter_all_tables none f ∧
    client.iter_all_tables f (some "") = client.iter_all_tables f none ∧
    check_schema_comments client (some "") = check_schema_comments client none ∧
    check_table_comments client (some "") f = check_table_comments client none f ∧
    check_table_comments client f (some "") = check_table_comments client f none ∧
    check_column_comments client (some "") f = check_column_comments client none f ∧
    check_column_comments client f (some "") = check_column_comments client f none ∧
    check_table_owners client (some "") f = check_table_owners client none f ∧
    check_table_owners client f (some "") = check_table_owners client f none ∧
    check_empty_schemas client (some "") = check_empty_schemas client none ∧
    run_all_checks client (some "") (some "") = run_all_checks client none none := by
  have hfs : filterSkips (some "") = filterSkips none := by
    funext n
    simp [filterSkips]
  have hinner : ∀ cn, iterTablesForSchema client cn (some "") =
      iterTablesForSchema client cn none := by
    intro cn
    funext schema
    simp only [iterTablesForSchema, hfs]
  have houter1 : ∀ g, iterTablesForCatalog client (some "") g =
      iterTablesForCatalog client none g := by
    intro g
    funext catalog
    simp only [iterTablesForCatalog, hfs]
  have houter2 : ∀ g, iterTablesForCatalog client g (some "") =
      iterTablesForCatalog client g none := by
    intro g
    funext catalog
    simp only [iterTablesForCatalog, hinner]
  have hiter1 : ∀ g, iter_tables_of client (some "") g = iter_tables_of client none g := by
    intro g
    funext catalogs
    simp only [iter_tables_of, houter1]
  have hiter2 : ∀ g, iter_tables_of client g (some "") = iter_tables_of client g none := by
    intro g
    funext catalogs
    simp only [iter_tables_of, houter2]
  have hsc : schema_comments_of client (some "") = schema_comments_of client none := by
    funext catalogs
    have h : schemaCommentsForCatalog client (some "") =
        schemaCommentsForCatalog client none := by
      funext catalog
      simp only [schemaCommentsForCatalog, hfs]
    simp only [schema_comments_of, h]
  have hes : empty_schemas_of client (some "") = empty_schemas_of client none := by
    funext catalogs
    have h : emptySchemasForCatalog client (some "") =
        emptySchemasForCatalog client none := by
      funext catalog
      simp only [emptySchemasForCatalog, hfs]
    simp only [empty_schemas_of, h]
  refine ⟨?_, ?_, ?_, ?_, ?_, ?_, ?_, ?_, ?_, ?_, ?_⟩ <;>
    simp only [run_all_checks, check_schema_comments, check_table_comments,
      check_column_comments, check_table_owners, check_empty_schemas,
      check_catalog_comments, UCHygieneClient.iter_all_tables,
      hiter1, hiter2, hsc, hes]

theorem columnCommentOpt_eq (client : UCHygieneClient) (cn sn : String)
    (tbl : TableInfo) :
    columnCommentOpt client (cn, sn, tbl) =
      match client.get_table_columns (fullTableName cn sn tbl.name) with
      | .error _ => none
      | .ok columns =>
        if (columnsWithoutComments columns).isEmpty then none
        else some (columnCommentFinding (fullTableName cn sn tbl.name)
          (columnsWithoutComments columns)) := rfl

theorem columnCommentOpt_name (client : UCHygieneClient)
    (t : String × String × TableInfo) (r : CheckResult)
    (h : columnCommentOpt client t = some r) :
    r.object_name = fullTableName t.1 t.2.1 t.2.2.name := by
  obtain ⟨cn, sn, tbl⟩ := t
  rw [columnCommentOpt_eq] at h
  cases hg : client.get_table_columns (fullTableName cn sn tbl.name) with
  | error e =>
    rw [hg] at h
    cases h
  | ok columns =>
    rw [hg] at h
    dsimp only at h
    split at h
    · cases h
    · injection h with h2
      subst h2
      rfl

/-- C3: for every table yielded by the traversal (with distinct full
names), the column-comment check emits at most one finding; none when
the column fetch fails (the table is skipped silently and the rest of
the traversal continues) and none when no column lacks a comment;
exactly one INFO finding, whose `"columns"` detail lists precisely the
names of the columns with empty or absent comments, when at least one
column lacks a comment. -/
theorem check_column_comments_correct (client : UCHygieneClient)
    (catalog_filter schema_filter : Option String)
    (triples : List (String × String × TableInfo))
    (hiter : client.iter_all_tables catalog_filter schema_filter = .ok triples)
    (hnd : (triples.map fun t => fullTableName t.1 t.2.1 t.2.2.name).Nodup) :
    ∃ results,
      check_column_comments client catalog_filter schema_filter = .ok results ∧
      ∀ t ∈ triples,
        ((results.countP fun r =>
          r.object_name == fullTableName t.1 t.2.1 t.2.2.name) ≤ 1) ∧
        (∀ e, client.get_table_columns (fullTableName t.1 t.2.1 t.2.2.name) = .error e →
          (results.countP fun r =>
            r.object_name == fullTableName t.1 t.2.1 t.2.2.name) = 0) ∧
        (∀ columns,
          client.get_table_columns (fullTableName t.1 t.2.1 t.2.2.name) = .ok columns →
          (columnsWithoutComments columns = [] →
            (results.countP fun r =>
              r.object_name == fullTableName t.1 t.2.1 t.2.2.name) = 0) ∧
          (columnsWithoutComments columns ≠ [] →
            (results.countP fun r =>
              r.object_name == fullTableName t.1 t.2.1 t.2.2.name) = 1 ∧
            columnCommentFinding (fullTableName t.1 t.2.1 t.2.2.name)
              (columnsWithoutComments columns) ∈ results ∧
            (∀ colName, colName ∈ columnsWithoutComments columns ↔
              ∃ col ∈ columns, strTruthy col.comment = false ∧
                col.name = colName))) := by
  refine ⟨triples.filterMap (columnCommentOpt client), ?_, ?_⟩
  · rw [check_column_comments, hiter]
    rfl
  · intro t ht
    have hcount := countP_filterMap_key (columnCommentOpt client)
      (fun t => fullTableName t.1 t.2.1 t.2.2.name)
      (columnCommentOpt_name client) triples hnd t ht
    obtain ⟨cn, sn, tbl⟩ := t
    dsimp only at hcount ⊢
    refine ⟨?_, ?_, ?_⟩
    · rw [hcount]
      split <;> simp
    · intro e he
      rw [hcount, columnCommentOpt_eq, he]
      rfl
    · intro columns hok
      constructor
      · intro hnil
        rw [hcount, columnCommentOpt_eq, hok]
        simp [hnil]
      · intro hne
        have hne2 : (columnsWithoutComments columns).isEmpty = false := by
          simpa [List.isEmpty_iff] using hne
        refine ⟨?_, ?_, ?_⟩
        · rw [hcount, columnCommentOpt_eq, hok]
          simp [hne2]
        · refine List.mem_filterMap.mpr ⟨(cn, sn, tbl), ht, ?_⟩
          rw [columnCommentOpt_eq, hok]
          simp [hne2]
        · intro colName
          simp only [columnsWithoutComments, List.mem_map, List.mem_filter,
            Bool.not_eq_eq_eq_not, Bool.not_true]
          constructor
          · rintro ⟨col, ⟨hmem, hmiss⟩, hname⟩
            exact ⟨col, hmem, hmiss, hname⟩
          · rintro ⟨col, hmem, hmiss, hname⟩
            exact ⟨col, ⟨hmem, hmiss⟩, hname⟩

/-- C3 witness: on the demo snapshot the traversal yields two tables;
`c1.s1.t1` has one uncommented column (`col_a`) and gets exactly one
finding listing it, while the column fetch for `c3.s2.ta` fails and
that table is skipped. -/
theorem check_column_comments_correct_witness :
    (∃ results,
      check_column_comments demoClient none none = .ok results ∧
      ∀ t ∈ [("c1", "s1", TableInfo.mk "t1" none none none),
          ("c3", "s2", TableInfo.mk "ta" (some "doc") (some "owner") none)],
        ((results.countP fun r =>
          r.object_name == fullTableName t.1 t.2.1 t.2.2.name) ≤ 1) ∧
        (∀ e, demoClient.get_table_columns (fullTableName t.1 t.2.1 t.2.2.name) = .error e →
          (results.countP fun r =>
            r.object_name == fullTableName t.1 t.2.1 t.2.2.name) = 0) ∧
        (∀ columns,
          demoClient.get_table_columns (fullTableName t.1 t.2.1 t.2.2.name) = .ok columns →
          (columnsWithoutComments columns = [] →
            (results.countP fun r =>
              r.object_name == fullTableName t.1 t.2.1 t.2.2.name) = 0) ∧
          (columnsWithoutComments columns ≠ [] →
            (results.countP fun r =>
              r.object_name == fullTableName t.1 t.2.1 t.2.2.name) = 1 ∧
            columnCommentFinding (fullTableName t.1 t.2.1 t.2.2.name)
              (columnsWithoutComments columns) ∈ results ∧
            (∀ colName, colName ∈ columnsWithoutComments columns ↔
              ∃ col ∈ columns, strTruthy col.comment = false ∧
                col.name = colName)))) :=
  check_column_comments_correct demoClient none none
    [("c1", "s1", TableInfo.mk "t1" none none none),
      ("c3", "s2", TableInfo.mk "ta" (some "doc") (some "owner") none)]
    rfl (by decide)

theorem empty_schemas_of_eq (client : UCHygieneClient) (cf : Option String)
    (catalogs : List CatalogInfo) :
    empty_schemas_of client cf catalogs =
      (traversedSchemas client cf catalogs).filterMap
        (fun p => emptySchemaOpt client p.1.name p.2) := by
  induction catalogs with
  | nil => rfl
  | cons c t ih =>
    rw [empty_schemas_of, List.flatMap_cons, traversedSchemas, List.flatMap_cons,
      List.filterMap_append]
    congr 1
    · unfold emptySchemasForCatalog traversedForCatalog
      by_cases hskip : filterSkips cf c.name
      · simp [hskip]
      · cases hs : client.list_schemas c.name with
        | error e => simp [hskip, hs]
        | ok ss =>
          simp only [hskip, Bool.false_eq_true, if_false, hs, List.filterMap_map]
          exact List.filterMap_congr (fun s _ => rfl)

theorem emptySchemaOpt_name (client : UCHygieneClient)
    (p : CatalogInfo × SchemaInfo) (r : CheckResult)
    (h : emptySchemaOpt client p.1.name p.2 = some r) :
    r.object_name = p.1.name ++ "." ++ p.2.name := by
  unfold emptySchemaOpt at h
  split at h
  · cases h
  · split at h
    · cases h
    · split at h
      · injection h with h2
        subst h2
        rfl
      · cases h

theorem emptySchemaOpt_some_iff (client : UCHygieneClient) (cn : String)
    (s : SchemaInfo) (r : CheckResult) :
    emptySchemaOpt client cn s = some r ↔
      strStartsWith s.name "information_schema" = false ∧
      client.list_tables cn s.name = .ok [] ∧
      r = emptySchemaFinding cn s.name := by
  unfold emptySchemaOpt
  by_cases hpref : strStartsWith s.name "information_schema"
  · simp [hpref]
  · have hpf : strStartsWith s.name "information_schema" = false := by
      simpa using hpref
    rw [if_neg hpref]
    cases ht : client.list_tables cn s.name with
    | error e => simp [hpf, ht]
    | ok tables =>
      by_cases hlen : tables.length = 0
      · have hnil : tables = [] := List.length_eq_zero.mp hlen
        subst hnil
        simp [hpf, ht, eq_comm]
      · have hne : ¬tables = [] := fun h => hlen (by simp [h])
        simp [hpf, ht, hlen, hne]

theorem mem_traversedSchemas (client : UCHygieneClient) (cf : Option String)
    (catalogs : List CatalogInfo) (c : CatalogInfo) (s : SchemaInfo)
    (schemas : List SchemaInfo) (hc : c ∈ catalogs)
    (hskip : filterSkips cf c.name = false)
    (hs : client.list_schemas c.name = .ok schemas) (hmem : s ∈ schemas) :
    (c, s) ∈ traversedSchemas client cf catalogs := by
  unfold traversedSchemas
  rw [List.mem_flatMap]
  refine ⟨c, hc, ?_⟩
  unfold traversedForCatalog
  simp only [hskip, Bool.false_eq_true, if_false, hs, List.mem_map]
  exact ⟨s, hmem, rfl⟩

theorem traversedSchemas_sound (client : UCHygieneClient) (cf : Option String)
    (catalogs : List CatalogInfo) (p : CatalogInfo × SchemaInfo)
    (hp : p ∈ traversedSchemas client cf catalogs) :
    p.1 ∈ catalogs ∧ filterSkips cf p.1.name = false ∧
      ∃ schemas, client.list_schemas p.1.name = .ok schemas ∧ p.2 ∈ schemas := by
  unfold traversedSchemas at hp
  rw [List.mem_flatMap] at hp
  obtain ⟨c, hc, hpc⟩ := hp
  unfold traversedForCatalog at hpc
  by_cases hskip : filterSkips cf c.name
  · rw [if_pos hskip] at hpc
    cases hpc
  · rw [if_neg hskip] at hpc
    cases hs : client.list_schemas c.name with
    | error e =>
      rw [hs] at hpc
      cases hpc
    | ok ss =>
      rw [hs] at hpc
      rw [List.mem_map] at hpc
      obtain ⟨s, hsm, rfl⟩ := hpc
      exact ⟨hc, by simpa using hskip, ss, hs, hsm⟩

/-- C4: the empty-schema check never emits a finding for any schema
whose name begins with `information_schema`, regardless of its table
count; for every other visited schema of a catalog matching the filter
it emits exactly one INFO finding precisely when the schema's table
listing succeeds and is empty, and it skips the schema silently when
the listing fails or is non-empty. -/
theorem check_empty_schemas_correct (client : UCHygieneClient)
    (catalog_filter : Option String) (catalogs : List CatalogInfo)
    (hcat : client.list_catalogs = .ok catalogs)
    (hnd : ((traversedSchemas client catalog_filter catalogs).map
      (fun p => p.1.name ++ "." ++ p.2.name)).Nodup) :
    ∃ results, check_empty_schemas client catalog_filter = .ok results ∧
      (∀ r ∈ results, ∃ c ∈ catalogs,
        filterSkips catalog_filter c.name = false ∧
        ∃ schemas, client.list_schemas c.name = .ok schemas ∧
        ∃ s ∈ schemas, strStartsWith s.name "information_schema" = false ∧
          client.list_tables c.name s.name = .ok [] ∧
          r = emptySchemaFinding c.name s.name) ∧
      (∀ p ∈ traversedSchemas client catalog_filter catalogs,
        (strStartsWith p.2.name "information_schema" = false →
          client.list_tables p.1.name p.2.name = .ok [] →
          emptySchemaFinding p.1.name p.2.name ∈ results ∧
          (results.countP fun r =>
            r.object_name == p.1.name ++ "." ++ p.2.name) = 1) ∧
        (strStartsWith p.2.name "information_schema" = true →
          (results.countP fun r =>
            r.object_name == p.1.name ++ "." ++ p.2.name) = 0) ∧
        (∀ e, client.list_tables p.1.name p.2.name = .error e →
          (results.countP fun r =>
            r.object_name == p.1.name ++ "." ++ p.2.name) = 0) ∧
        (∀ tables, client.list_tables p.1.name p.2.name = .ok tables →
          tables ≠ [] →
          (results.countP fun r =>
            r.object_name == p.1.name ++ "." ++ p.2.name) = 0)) := by
  refine ⟨(traversedSchemas client catalog_filter catalogs).filterMap
    (fun p => emptySchemaOpt client p.1.name p.2), ?_, ?_, ?_⟩
  · rw [check_empty_schemas, hcat]
    exact congrArg Except.ok (empty_schemas_of_eq client catalog_filter catalogs)
  · intro r hr
    rw [List.mem_filterMap] at hr
    obtain ⟨p, hp, hfp⟩ := hr
    obtain ⟨hc, hskip, schemas, hs, hsm⟩ := traversedSchemas_sound client
      catalog_filter catalogs p hp
    rw [emptySchemaOpt_some_iff] at hfp
    exact ⟨p.1, hc, hskip, schemas, hs, p.2, hsm, hfp.1, hfp.2.1, hfp.2.2⟩
  · intro p hp
    have hcount := countP_filterMap_key
      (fun p => emptySchemaOpt client p.1.name p.2)
      (fun p => p.1.name ++ "." ++ p.2.name)
      (emptySchemaOpt_name client)
      (traversedSchemas client catalog_filter catalogs) hnd p hp
    dsimp only at hcount
    refine ⟨?_, ?_, ?_, ?_⟩
    · intro hpref htab
      have hsome : emptySchemaOpt client p.1.name p.2 =
          some (emptySchemaFinding p.1.name p.2.name) :=
        (emptySchemaOpt_some_iff client p.1.name p.2 _).mpr ⟨hpref, htab, rfl⟩
      refine ⟨List.mem_filterMap.mpr ⟨p, hp, hsome⟩, ?_⟩
      rw [hcount, hsome]
      rfl
    · intro hpref
      have hnone : emptySchemaOpt client p.1.name p.2 = none := by
        unfold emptySchemaOpt
        rw [if_pos hpref]
      rw [hcount, hnone]
      rfl
    · intro e he
      have hnone : emptySchemaOpt client p.1.name p.2 = none := by
        unfold emptySchemaOpt
        by_cases hpref : strStartsWith p.2.name "information_schema"
        · rw [if_pos hpref]
        · rw [if_neg hpref, he]
      rw [hcount, hnone]
      rfl
    · intro tables htab hne
      have hnone : emptySchemaOpt client p.1.name p.2 = none := by
        unfold emptySchemaOpt
        by_cases hpref : strStartsWith p.2.name "information_schema"
        · rw [if_pos hpref]
        · rw [if_neg hpref, htab]
          have hlen : ¬tables.length = 0 := by
            simpa [List.length_eq_zero] using hne
          simp [hlen]
      rw [hcount, hnone]
      rfl

/-- C4 witness: on the demo snapshot the traversal visits `c1.s1`,
`c1.information_schema`, `c3.s1` and `c3.s2`; only `c3.s1` (visited,
not an `information_schema`, and with an empty table listing) gets
exactly one finding, the `information_schema` schema gets none even
though its listing is empty, and the non-empty schemas get none. -/
theorem check_empty_schemas_correct_witness :
    ∃ results, check_empty_schemas demoClient none = .ok results ∧
      (∀ r ∈ results, ∃ c ∈ [CatalogInfo.mk "c1" none,
          CatalogInfo.mk "c2" (some "ok"), CatalogInfo.mk "c3" (some "")],
        filterSkips none c.name = false ∧
        ∃ schemas, demoClient.list_schemas c.name = .ok schemas ∧
        ∃ s ∈ schemas, strStartsWith s.name "information_schema" = false ∧
          demoClient.list_tables c.name s.name = .ok [] ∧
          r = emptySchemaFinding c.name s.name) ∧
      (∀ p ∈ traversedSchemas demoClient none [CatalogInfo.mk "c1" none,
          CatalogInfo.mk "c2" (some "ok"), CatalogInfo.mk "c3" (some "")],
        (strStartsWith p.2.name "information_schema" = false →
          demoClient.list_tables p.1.name p.2.name = .ok [] →
          emptySchemaFinding p.1.name p.2.name ∈ results ∧
          (results.countP fun r =>
            r.object_name == p.1.name ++ "." ++ p.2.name) = 1) ∧
        (strStartsWith p.2.name "information_schema" = true →
          (results.countP fun r =>
            r.object_name == p.1.name ++ "." ++ p.2.name) = 0) ∧
        (∀ e, demoClient.list_tables p.1.name p.2.name = .error e →
          (results.countP fun r =>
            r.object_name == p.1.name ++ "." ++ p.2.name) = 0) ∧
        (∀ tables, demoClient.list_tables p.1.name p.2.name = .ok tables →
          tables ≠ [] →
          (results.countP fun r =>
            r.object_name == p.1.name ++ "." ++ p.2.name) = 0)) :=
  check_empty_schemas_correct demoClient none
    [CatalogInfo.mk "c1" none, CatalogInfo.mk "c2" (some "ok"),
      CatalogInfo.mk "c3" (some "")] rfl (by decide)

theorem except_map_ok {ε α β : Type} (g : α → β) (x : Except ε α) (b : β)
    (h : x.map g = .ok b) : ∃ a, x = .ok a ∧ b = g a := by
  cases x with
  | error e => cases h
  | ok a =>
    refine ⟨a, rfl, ?_⟩
    injection h with h2
    exact h2.symm

theorem check_table_comments_via_of (client : UCHygieneClient)
    (catalog_filter schema_filter : Option String) :
    check_table_comments client catalog_filter schema_filter =
      (client.list_catalogs).map (table_comments_of client catalog_filter schema_filter) := by
  unfold check_table_comments UCHygieneClient.iter_all_tables table_comments_of
  cases client.list_catalogs <;> rfl

/-- C5: if the schema listing for one catalog in the listing fails,
the schema-comment, table-comment and empty-schema checks return
exactly what they would return had that catalog not been listed at all
— and the failing catalog itself contributes zero findings. -/
theorem failing_catalog_is_isolated (client : UCHygieneClient)
    (catalog_filter schema_filter : Option String)
    (pre post : List CatalogInfo) (bad : CatalogInfo) (e : String)
    (hcat : client.list_catalogs = .ok (pre ++ bad :: post))
    (hbad : client.list_schemas bad.name = .error e) :
    check_schema_comments client catalog_filter =
      .ok (schema_comments_of client catalog_filter (pre ++ post)) ∧
    check_table_comments client catalog_filter schema_filter =
      .ok (table_comments_of client catalog_filter schema_filter (pre ++ post)) ∧
    check_empty_schemas client catalog_filter =
      .ok (empty_schemas_of client catalog_filter (pre ++ post)) ∧
    schema_comments_of client catalog_filter [bad] = [] ∧
    table_comments_of client catalog_filter schema_filter [bad] = [] ∧
    empty_schemas_of client catalog_filter [bad] = [] := by
  have hb1 : schemaCommentsForCatalog client catalog_filter bad = [] := by
    unfold schemaCommentsForCatalog
    by_cases hskip : filterSkips catalog_filter bad.name
    · rw [if_pos hskip]
    · rw [if_neg hskip, hbad]
  have hb2 : iterTablesForCatalog client catalog_filter schema_filter bad = [] := by
    unfold iterTablesForCatalog
    by_cases hskip : filterSkips catalog_filter bad.name
    · rw [if_pos hskip]
    · rw [if_neg hskip, hbad]
  have hb3 : emptySchemasForCatalog client catalog_filter bad = [] := by
    unfold emptySchemasForCatalog
    by_cases hskip : filterSkips catalog_filter bad.name
    · rw [if_pos hskip]
    · rw [if_neg hskip, hbad]
  refine ⟨?_, ?_, ?_, ?_, ?_, ?_⟩
  · rw [check_schema_comments, hcat]
    refine congrArg Except.ok ?_
    unfold schema_comments_of
    exact flatMap_middle_nil _ pre post bad hb1
  · rw [check_table_comments_via_of, hcat]
    refine congrArg Except.ok ?_
    unfold table_comments_of iter_tables_of
    rw [flatMap_middle_nil _ pre post bad hb2]
  · rw [check_empty_schemas, hcat]
    refine congrArg Except.ok ?_
    unfold empty_schemas_of
    exact flatMap_middle_nil _ pre post bad hb3
  · unfold schema_comments_of
    simp [hb1]
  · unfold table_comments_of iter_tables_of
    simp [hb2]
  · unfold empty_schemas_of
    simp [hb3]

/-- C5 witness: on the demo snapshot the schema listing for `c2` fails,
and the three checks behave exactly as if only `c1` and `c3` were
listed, with `c2` contributing no findings. -/
theorem failing_catalog_is_isolated_witness :
    check_schema_comments demoClient none =
      .ok (schema_comments_of demoClient none
        [CatalogInfo.mk "c1" none, CatalogInfo.mk "c3" (some "")]) ∧
    check_table_comments demoClient none none =
      .ok (table_comments_of demoClient none none
        [CatalogInfo.mk "c1" none, CatalogInfo.mk "c3" (some "")]) ∧
    check_empty_schemas demoClient none =
      .ok (empty_schemas_of demoClient none
        [CatalogInfo.mk "c1" none, CatalogInfo.mk "c3" (some "")]) ∧
    schema_comments_of demoClient none [CatalogInfo.mk "c2" (some "ok")] = [] ∧
    table_comments_of demoClient none none [CatalogInfo.mk "c2" (some "ok")] = [] ∧
    empty_schemas_of demoClient none [CatalogInfo.mk "c2" (some "ok")] = [] :=
  failing_catalog_is_isolated demoClient none none
    [CatalogInfo.mk "c1" none] [CatalogInfo.mk "c3" (some "")]
    (CatalogInfo.mk "c2" (some "ok")) "permission denied" rfl rfl

theorem tableCommentOpt_eq (cn sn : String) (tbl : TableInfo) :
    tableCommentOpt (cn, sn, tbl) =
      if !strTruthy tbl.comment then
        some (tableCommentFinding (fullTableName cn sn tbl.name))
      else none := rfl

theorem tableOwnerOpt_eq (cn sn : String) (tbl : TableInfo) :
    tableOwnerOpt (cn, sn, tbl) =
      if !strTruthy tbl.owner then
        some (tableOwnerFinding (fullTableName cn sn tbl.name))
      else none := rfl

theorem tableCommentOpt_name (t : String × String × TableInfo) (r : CheckResult)
    (h : tableCommentOpt t = some r) :
    r.object_name = fullTableName t.1 t.2.1 t.2.2.name := by
  obtain ⟨cn, sn, tbl⟩ := t
  rw [tableCommentOpt_eq] at h
  split at h
  · injection h with h2
    subst h2
    rfl
  · cases h

theorem tableOwnerOpt_name (t : String × String × TableInfo) (r : CheckResult)
    (h : tableOwnerOpt t = some r) :
    r.object_name = fullTableName t.1 t.2.1 t.2.2.name := by
  obtain ⟨cn, sn, tbl⟩ := t
  rw [tableOwnerOpt_eq] at h
  split at h
  · injection h with h2
    subst h2
    rfl
  · cases h

theorem iter_tables_of_mem (client : UCHygieneClient)
    (catalog_filter schema_filter : Option String) (catalogs : List CatalogInfo)
    (t : String × String × TableInfo)
    (ht : t ∈ iter_tables_of client catalog_filter schema_filter catalogs) :
    filterSkips catalog_filter t.1 = false ∧
    filterSkips schema_filter t.2.1 = false := by
  unfold iter_tables_of at ht
  rw [List.mem_flatMap] at ht
  obtain ⟨c, hc, htc⟩ := ht
  unfold iterTablesForCatalog at htc
  by_cases h1 : filterSkips catalog_filter c.name
  · rw [if_pos h1] at htc
    cases htc
  · rw [if_neg h1] at htc
    cases hs : client.list_schemas c.name with
    | error e =>
      rw [hs] at htc
      cases htc
    | ok ss =>
      rw [hs] at htc
      rw [List.mem_flatMap] at htc
      obtain ⟨s, hsm, hts⟩ := htc
      unfold iterTablesForSchema at hts
      by_cases h2 : filterSkips schema_filter s.name
      · rw [if_pos h2] at hts
        cases hts
      · rw [if_neg h2] at hts
        cases htb : client.list_tables c.name s.name with
        | error e =>
          rw [htb] at hts
          cases hts
        | ok tables =>
          rw [htb] at hts
          rw [List.mem_map] at hts
          obtain ⟨tbl, htm, rfl⟩ := hts
          exact ⟨by simpa using h1, by simpa using h2⟩

theorem iter_all_tables_ok (client : UCHygieneClient)
    (catalog_filter schema_filter : Option String)
    (triples : List (String × String × TableInfo))
    (h : client.iter_all_tables catalog_filter schema_filter = .ok triples) :
    ∃ catalogs, client.list_catalogs = .ok catalogs ∧
      triples = iter_tables_of client catalog_filter schema_filter catalogs := by
  unfold UCHygieneClient.iter_all_tables at h
  exact except_map_ok _ _ _ h |>.imp fun catalogs ⟨h1, h2⟩ => ⟨h1, h2⟩

/-- C7: with a (non-empty) `catalog_filter`, every triple yielded by
the traversal has that catalog name, and every finding of the
table-comment, table-owner and column-comment checks has an object
name whose catalog segment is exactly the filter value; with a
schema_filter and no catalog_filter, the traversal still works and
every yielded triple has exactly the filtered schema name. -/
theorem filters_scope_traversal (client : UCHygieneClient)
    (v w : String) (hv : v ≠ "") (hw : w ≠ "") (schema_filter : Option String) :
    (∀ triples, client.iter_all_tables (some v) schema_filter = .ok triples →
      ∀ t ∈ triples, t.1 = v) ∧
    (∀ results, check_table_comments client (some v) schema_filter = .ok results →
      ∀ r ∈ results, ∃ rest, r.object_name = v ++ "." ++ rest) ∧
    (∀ results, check_table_owners client (some v) schema_filter = .ok results →
      ∀ r ∈ results, ∃ rest, r.object_name = v ++ "." ++ rest) ∧
    (∀ results, check_column_comments client (some v) schema_filter = .ok results →
      ∀ r ∈ results, ∃ rest, r.object_name = v ++ "." ++ rest) ∧
    (∀ triples, client.iter_all_tables none (some w) = .ok triples →
      ∀ t ∈ triples, t.2.1 = w) := by
  refine ⟨?_, ?_, ?_, ?_, ?_⟩
  · intro triples hiter t ht
    obtain ⟨catalogs, hc, rfl⟩ := iter_all_tables_ok client (some v)
      schema_filter triples hiter
    exact filterSkips_some_false v t.1 hv
      (iter_tables_of_mem client (some v) schema_filter catalogs t ht).1
  · intro results hres r hr
    unfold check_table_comments at hres
    obtain ⟨triples, hiter, rfl⟩ := except_map_ok _ _ _ hres
    obtain ⟨catalogs, hc, rfl⟩ := iter_all_tables_ok client (some v)
      schema_filter triples hiter
    rw [List.mem_filterMap] at hr
    obtain ⟨t, ht, hopt⟩ := hr
    have hcv : t.1 = v := filterSkips_some_false v t.1 hv
      (iter_tables_of_mem client (some v) schema_filter catalogs t ht).1
    refine ⟨t.2.1 ++ "." ++ t.2.2.name, ?_⟩
    rw [tableCommentOpt_name t r hopt, fullTableName_assoc, hcv]
  · intro results hres r hr
    unfold check_table_owners at hres
    obtain ⟨triples, hiter, rfl⟩ := except_map_ok _ _ _ hres
    obtain ⟨catalogs, hc, rfl⟩ := iter_all_tables_ok client (some v)
      schema_filter triples hiter
    rw [List.mem_filterMap] at hr
    obtain ⟨t, ht, hopt⟩ := hr
    have hcv : t.1 = v := filterSkips_some_false v t.1 hv
      (iter_tables_of_mem client (some v) schema_filter catalogs t ht).1
    refine ⟨t.2.1 ++ "." ++ t.2.2.name, ?_⟩
    rw [tableOwnerOpt_name t r hopt, fullTableName_assoc, hcv]
  · intro results hres r hr
    unfold check_column_comments at hres
    obtain ⟨triples, hiter, rfl⟩ := except_map_ok _ _ _ hres
    obtain ⟨catalogs, hc, rfl⟩ := iter_all_tables_ok client (some v)
      schema_filter triples hiter
    rw [List.mem_filterMap] at hr
    obtain ⟨t, ht, hopt⟩ := hr
    have hcv : t.1 = v := filterSkips_some_false v t.1 hv
      (iter_tables_of_mem client (some v) schema_filter catalogs t ht).1
    refine ⟨t.2.1 ++ "." ++ t.2.2.name, ?_⟩
    rw [columnCommentOpt_name client t r hopt, fullTableName_assoc, hcv]
  · intro triples hiter t ht
    obtain ⟨catalogs, hc, rfl⟩ := iter_all_tables_ok client none
      (some w) triples hiter
    exact filterSkips_some_false w t.2.1 hw
      (iter_tables_of_mem client none (some w) catalogs t ht).2

/-- C7 witness: on the demo snapshot with `catalog_filter = "c1"`,
every yielded triple and every table-level finding is under catalog
`c1`; with only `schema_filter = "s1"`, every yielded triple has
schema `s1` (across all catalogs). -/
theorem filters_scope_traversal_witness :
    (∀ triples, demoClient.iter_all_tables (some "c1") none = .ok triples →
      ∀ t ∈ triples, t.1 = "c1") ∧
    (∀ results, check_table_comments demoClient (some "c1") none = .ok results →
      ∀ r ∈ results, ∃ rest, r.object_name = "c1" ++ "." ++ rest) ∧
    (∀ results, check_table_owners demoClient (some "c1") none = .ok results →
      ∀ r ∈ results, ∃ rest, r.object_name = "c1" ++ "." ++ rest) ∧
    (∀ results, check_column_comments demoClient (some "c1") none = .ok results →
      ∀ r ∈ results, ∃ rest, r.object_name = "c1" ++ "." ++ rest) ∧
    (∀ triples, demoClient.iter_all_tables none (some "s1") = .ok triples →
      ∀ t ∈ triples, t.2.1 = "s1") :=
  filters_scope_traversal demoClient "c1" "s1" (by decide) (by decide) none

/-- C8 counterexample: the claimed scenario output is impossible.  The
scenario demands both an `empty_schema` finding for `c1.s1` (its table
listing must be empty) and table-level findings for `c1.s1.t1` (the
same listing must contain `t1`), but a snapshot accessor answers one
listing call one way.  On the reading where `t1` exists,
`run_all_checks` yields 5 findings and no `empty_schema` finding; on
the reading where `s1` really is empty, it yields 3 findings and no
table-level finding — never the claimed 6. -/
theorem run_all_checks_scenario_counterexample :
    (run_all_checks scenarioClient none none).map List.length = .ok 5 ∧
    (run_all_checks scenarioClient none none).map
      (List.countP fun r => r.check_name == "empty_schema") = .ok 0 ∧
    (run_all_checks scenarioEmptyClient none none).map List.length = .ok 3 ∧
    (run_all_checks scenarioEmptyClient none none).map
      (List.countP fun r => r.check_name == "table_comment") = .ok 0 := by
  refine ⟨rfl, rfl, rfl, rfl⟩

/-- C8 amended: for the snapshot where catalog `c1` has no comment, its
schema `s1` has no comment and contains exactly the table `c1.s1.t1`
(no comment, no owner, one uncommented column `col_a`),
`run_all_checks` yields exactly 5 findings, in the order
catalog_comment(c1), schema_comment(c1.s1), table_comment(c1.s1.t1),
column_comment(c1.s1.t1 with details columns=["col_a"]),
table_owner(c1.s1.t1); no empty_schema finding appears because `s1`
contains `t1`. -/
theorem run_all_checks_scenario :
    run_all_checks scenarioClient none none =
      .ok [catalogFinding ⟨"c1", none⟩,
        schemaFinding "c1" "s1",
        tableCommentFinding "c1.s1.t1",
        columnCommentFinding "c1.s1.t1" ["col_a"],
        tableOwnerFinding "c1.s1.t1"] := rfl

end UCHygiene
